import Mathlib

set_option maxHeartbeats 1000000

/-!
Shallow embedding of the solana-dutch-auction program
(src/src/error.rs, src/src/instruction.rs, src/src/state.rs,
src/src/processor.rs).

Conventions of the embedding:
* u64 values are `Nat`; wherever the Rust code performs an unchecked
  u64 operation that can overflow, the result is reduced modulo
  2^64 = 18446744073709551616 (release-profile wrapping semantics).
* i64 values are `Int`; the unchecked i64 subtraction in
  `get_current_price` is wrapped into the i64 range explicitly
  (`i64wrap`), and the `as u64` cast is `u64cast`.
* a Rust panic / program abort (slice `split_at` out of range,
  `div_euclid` by zero or overflowing, `array_ref!` on a short slice)
  is the explicit outcome `RResult.crash`.
* fallible code returns `RResult`; domain errors (`AuctionError`) are
  carried through `ProgramError.custom`, exactly as the Rust
  `From<AuctionError> for ProgramError` conversion does.
* byte strings are `List Nat` (each entry one byte); a 32-byte identity
  (`Pubkey`) is such a list of length 32.
* external collaborators (the clock sysvar, the SPL mint account read
  for `decimals`, the actual lamport/token transfer primitives) are
  passed in as parameters or abstracted away: the clock is the `now`
  argument, account balances are `Nat` arguments, and a processor
  returns the amounts it would hand to the transfer primitives.
-/

/-- Domain error enum of src/src/error.rs (`AuctionError`). -/
inductive AuctionError where
  | AlreadyInUse
  | InvalidInstruction
  | InvalidInitializationTime
  | InvalidAuctionTokenOwnerAddress
  | InvalidAuctionTokenAddress
  | NotStarted
  | Finished
  | EverythingSoldOut
  | OwnerMismatch
  | NotFinished
deriving DecidableEq

/-- The slice of `solana_program::program_error::ProgramError` this
program can produce: a custom domain error (via
`From<AuctionError> for ProgramError`), `MissingRequiredSignature`
(validate_owner), or `InvalidAccountData` (Auction::unpack_from_slice). -/
inductive ProgramError where
  | custom (e : AuctionError)
  | missingRequiredSignature
  | invalidAccountData
deriving DecidableEq

/-- Outcome of running a fallible piece of the Rust program:
`ok`, an early `return Err(..)`, or `crash` for a Rust panic
(which aborts the whole transaction). -/
inductive RResult (α : Type) where
  | ok (value : α)
  | err (e : ProgramError)
  | crash
deriving DecidableEq

/-- Sequencing that models Rust `?` plus panic propagation. -/
def RResult.bind {α β : Type} : RResult α → (α → RResult β) → RResult β
  | .ok a, f => f a
  | .err e, _ => .err e
  | .crash, _ => .crash

/-- A 32-byte identity (`solana_program::pubkey::Pubkey`) as its byte list. -/
abbrev Pubkey := List Nat

/-- Little-endian byte encoding of a natural number on `k` bytes
(the `u64::to_le_bytes` layout when `k = 8`). -/
def natToLe : Nat → Nat → List Nat
  | _, 0 => []
  | n, k + 1 => n % 256 :: natToLe (n / 256) k

/-- Little-endian byte decoding (`u64::from_le_bytes` on 8 bytes). -/
def leToNat : List Nat → Nat
  | [] => 0
  | b :: bs => b + 256 * leToNat bs

/-- `i64::to_le_bytes`: two's-complement on 8 bytes. -/
def intToLe (x : Int) : List Nat :=
  natToLe (x % 18446744073709551616).toNat 8

/-- `i64::from_le_bytes`: two's-complement read of 8 bytes. -/
def leToInt (bs : List Nat) : Int :=
  if leToNat bs < 9223372036854775808 then (leToNat bs : Int)
  else (leToNat bs : Int) - 18446744073709551616

/-- Wrapping u64 arithmetic result. -/
def wrap64 (n : Nat) : Nat := n % 18446744073709551616

/-- Wrapping i64 arithmetic result (two's complement). -/
def i64wrap (x : Int) : Int :=
  (x + 9223372036854775808) % 18446744073709551616 - 9223372036854775808

/-- The Rust `as u64` cast from i64 (reinterpret two's complement). -/
def u64cast (x : Int) : Nat := (x % 18446744073709551616).toNat

/-- Contiguous segment of a byte list: `len` bytes starting at `off`
(the way `array_refs!` carves a slice). -/
def seg (bs : List Nat) (off len : Nat) : List Nat := (bs.drop off).take len

/-- The instruction enum of src/src/instruction.rs. -/
inductive AuctionInstruction where
  | InitializeAuction (token_amount : Nat) (time_start time_step : Int)
      (price_start price_step : Nat)
  | MakeBid (token_amount : Nat)
  | WithdrawSOL
  | WithdrawTokens
deriving DecidableEq

/-- Field ranges actually representable by the Rust types
(u64 fields below 2^64, i64 fields in the i64 range). -/
def AuctionInstruction.wfb : AuctionInstruction → Bool
  | .InitializeAuction token_amount time_start time_step price_start price_step =>
      decide (token_amount < 18446744073709551616) &&
      decide (-9223372036854775808 ≤ time_start) &&
      decide (time_start < 9223372036854775808) &&
      decide (-9223372036854775808 ≤ time_step) &&
      decide (time_step < 9223372036854775808) &&
      decide (price_start < 18446744073709551616) &&
      decide (price_step < 18446744073709551616)
  | .MakeBid token_amount => decide (token_amount < 18446744073709551616)
  | .WithdrawSOL => true
  | .WithdrawTokens => true

/-- src/src/instruction.rs `unpack_u64`.  `input.split_at(8)` panics when
the input holds fewer than 8 bytes (`crash`); when it succeeds the
`try_into` on the exactly-8-byte half can never fail, so the
`ok_or(InvalidInstruction)` arm is dead code. -/
def unpack_u64 (input : List Nat) : RResult (Nat × List Nat) :=
  if input.length < 8 then .crash
  else .ok (leToNat (input.take 8), input.drop 8)

/-- src/src/instruction.rs `unpack_unix_timestamp`; same structure as
`unpack_u64` with an i64 read. -/
def unpack_unix_timestamp (input : List Nat) : RResult (Int × List Nat) :=
  if input.length < 8 then .crash
  else .ok (leToInt (input.take 8), input.drop 8)

/-- The per-tag body of `AuctionInstruction::unpack`: the `match tag`
of src/src/instruction.rs lines 77-103, producing the decoded command
and the unconsumed remainder. -/
def unpackFields (tag : Nat) (rest : List Nat) :
    RResult (AuctionInstruction × List Nat) :=
  if tag = 0 then
    RResult.bind (unpack_u64 rest) (fun p1 =>
    RResult.bind (unpack_unix_timestamp p1.2) (fun p2 =>
    RResult.bind (unpack_unix_timestamp p2.2) (fun p3 =>
    RResult.bind (unpack_u64 p3.2) (fun p4 =>
    RResult.bind (unpack_u64 p4.2) (fun p5 =>
      .ok (.InitializeAuction p1.1 p2.1 p3.1 p4.1 p5.1, p5.2))))))
  else if tag = 1 then
    RResult.bind (unpack_u64 rest) (fun p1 => .ok (.MakeBid p1.1, p1.2))
  else if tag = 2 then .ok (.WithdrawSOL, rest)
  else if tag = 3 then .ok (.WithdrawTokens, rest)
  else .err (.custom .InvalidInstruction)

/-- src/src/instruction.rs `AuctionInstruction::unpack`: split off the
tag byte (`InvalidInstruction` on empty input), decode the tagged
fields, then reject any trailing bytes. -/
def AuctionInstruction.unpack (input : List Nat) : RResult AuctionInstruction :=
  match input with
  | [] => .err (.custom .InvalidInstruction)
  | tag :: rest =>
      RResult.bind (unpackFields tag rest) (fun pr =>
        if pr.2.isEmpty then .ok pr.1 else .err (.custom .InvalidInstruction))

/-- src/src/instruction.rs `AuctionInstruction::pack`. -/
def AuctionInstruction.pack : AuctionInstruction → List Nat
  | .InitializeAuction token_amount time_start time_step price_start price_step =>
      0 :: (natToLe token_amount 8 ++ intToLe time_start ++ intToLe time_step ++
        natToLe price_start 8 ++ natToLe price_step 8)
  | .MakeBid token_amount => 1 :: natToLe token_amount 8
  | .WithdrawSOL => [2]
  | .WithdrawTokens => [3]

/-- The persisted auction record of src/src/state.rs. -/
structure Auction where
  is_initialized : Bool
  authority : Pubkey
  token : Pubkey
  time_start : Int
  time_step : Int
  price_start : Nat
  price_step : Nat
deriving DecidableEq

/-- Field ranges representable by the Rust record types: 32-byte
identities, i64 times, u64 prices. -/
def Auction.wfb (a : Auction) : Bool :=
  decide (a.authority.length = 32) && decide (a.token.length = 32) &&
  decide (-9223372036854775808 ≤ a.time_start) &&
  decide (a.time_start < 9223372036854775808) &&
  decide (-9223372036854775808 ≤ a.time_step) &&
  decide (a.time_step < 9223372036854775808) &&
  decide (a.price_start < 18446744073709551616) &&
  decide (a.price_step < 18446744073709551616)

/-- src/src/state.rs `Auction::pack_into_slice`: 97 bytes, in order
flag, authority, token, time_start, time_step, price_start, price_step. -/
def Auction.pack_into_slice (a : Auction) : List Nat :=
  (if a.is_initialized then [1] else [0]) ++ a.authority ++ a.token ++
    intToLe a.time_start ++ intToLe a.time_step ++
    natToLe a.price_start 8 ++ natToLe a.price_step 8

/-- The `match is_initialized` of `Auction::unpack_from_slice`:
byte 0 means false, byte 1 means true, anything else is rejected. -/
def decodeInitFlag : List Nat → Option Bool
  | [0] => some false
  | [1] => some true
  | _ => none

/-- src/src/state.rs `Auction::unpack_from_slice`.  `array_ref![src, 0, 97]`
panics when the slice is shorter than 97 bytes; otherwise only the
initialization flag byte can be rejected (`InvalidAccountData`). -/
def Auction.unpack_from_slice (src : List Nat) : RResult Auction :=
  if src.length < 97 then .crash
  else
    match decodeInitFlag (seg src 0 1) with
    | none => .err .invalidAccountData
    | some b =>
        .ok { is_initialized := b,
              authority := seg src 1 32,
              token := seg src 33 32,
              time_start := leToInt (seg src 65 8),
              time_step := leToInt (seg src 73 8),
              price_start := leToNat (seg src 81 8),
              price_step := leToNat (seg src 89 8) }

/-- src/src/processor.rs `Processor::get_current_price` (the pricing
engine), with the clock reading passed as `now` and the SPL mint read
(which only fetches `decimals` for the later transfer) abstracted away.
Faithful points: the start check is `time_start > now`; the i64
subtraction `now - time_start` wraps in release builds; `div_euclid`
panics when `time_step` is zero (or on the single overflowing pair);
`price_step * (steps as u64)` is an unchecked, hence wrapping, u64
multiplication; only the subtraction is `checked_sub`, and a result of
exactly zero is filtered out (auction finished). -/
def get_current_price (a : Auction) (now : Int) : RResult (Option Nat) :=
  if a.time_start > now then .err (.custom .NotStarted)
  else if a.time_step = 0 ∨
      (i64wrap (now - a.time_start) = -9223372036854775808 ∧ a.time_step = -1) then
    .crash
  else
    .ok (if a.price_start ≤
          wrap64 (a.price_step *
            u64cast (i64wrap (now - a.time_start) / a.time_step))
        then none
        else some (a.price_start -
          wrap64 (a.price_step *
            u64cast (i64wrap (now - a.time_start) / a.time_step))))

/-- src/src/processor.rs `Processor::validate_owner`: key mismatch is the
domain error `OwnerMismatch`; a matching key that did not sign is the
fatal `MissingRequiredSignature`. -/
def validate_owner (expected_owner : Pubkey) (owner_key : Pubkey)
    (owner_signed : Bool) : Option ProgramError :=
  if expected_owner ≠ owner_key then some (.custom .OwnerMismatch)
  else if owner_signed = false then some .missingRequiredSignature
  else none

/-- src/src/processor.rs `Processor::process_bid`, with the stored record
already parsed (`unpack_unchecked` performs no initialization check),
the vault holding account balance as `vault_amount`, and the two
transfer side effects reported as the returned pair
(lamports moved to the vault authority, tokens moved to the customer).
The lamport amount `token_amount * current_price` is an unchecked,
hence wrapping, u64 multiplication. -/
def process_bid (a : Auction) (now : Int) (vault_amount token_amount : Nat) :
    RResult (Nat × Nat) :=
  RResult.bind (get_current_price a now) (fun cp =>
    match cp with
    | none => .err (.custom .Finished)
    | some current_price =>
        if vault_amount = 0 then .err (.custom .EverythingSoldOut)
        else
          let actual := min token_amount vault_amount
          .ok (wrap64 (actual * current_price), actual))

/-- src/src/processor.rs `Processor::process_withdraw_tokens`: owner
validation first, then the finished-state gate, then the whole vault
balance is transferred (the returned amount). -/
def process_withdraw_tokens (a : Auction) (caller : Pubkey)
    (caller_signed : Bool) (now : Int) (vault_amount : Nat) : RResult Nat :=
  match validate_owner a.authority caller caller_signed with
  | some e => .err e
  | none =>
      RResult.bind (get_current_price a now) (fun cp =>
        match cp with
        | some _ => .err (.custom .NotFinished)
        | none => .ok vault_amount)

/-- src/src/processor.rs `Processor::process_withdraw_sol`: same gating
as the token withdrawal; the vault authority's whole lamport balance is
transferred (the returned amount). -/
def process_withdraw_sol (a : Auction) (caller : Pubkey)
    (caller_signed : Bool) (now : Int) (owner_lamports : Nat) : RResult Nat :=
  match validate_owner a.authority caller caller_signed with
  | some e => .err e
  | none =>
      RResult.bind (get_current_price a now) (fun cp =>
        match cp with
        | some _ => .err (.custom .NotFinished)
        | none => .ok owner_lamports)

/-- src/src/processor.rs `Processor::process_initialize_auction`
(validation and record write; the three external side effects -
account creation and the funding token transfer - are delegated to
ledger collaborators and carry no record state).  The two derived
address comparisons are abstracted as the boolean outcomes
`owner_addr_ok` / `token_addr_ok` of the external derivation
primitives.  Faithful point: the time validation rejects
`time_start < now` and `time_step < 0` - zero `time_step` passes. -/
def process_initialize_auction (now : Int) (owner_addr_ok token_addr_ok : Bool)
    (stored : Auction) (auction_authority token_mint : Pubkey)
    (_token_amount : Nat) (time_start time_step : Int)
    (price_start price_step : Nat) : RResult Auction :=
  if time_start < now then .err (.custom .InvalidInitializationTime)
  else if time_step < 0 then .err (.custom .InvalidInitializationTime)
  else if owner_addr_ok = false then .err (.custom .InvalidAuctionTokenOwnerAddress)
  else if token_addr_ok = false then .err (.custom .InvalidAuctionTokenAddress)
  else if stored.is_initialized then .err (.custom .AlreadyInUse)
  else .ok { is_initialized := true,
             authority := auction_authority,
             token := token_mint,
             time_start := time_start,
             time_step := time_step,
             price_start := price_start,
             price_step := price_step }

/-- State-transition view of Initialize: on success the record account
holds the new record, on any failure the instruction aborts and the
stored record is untouched (no crash path exists in this processor). -/
def init_apply (now : Int) (owner_addr_ok token_addr_ok : Bool)
    (stored : Auction) (auction_authority token_mint : Pubkey)
    (token_amount : Nat) (time_start time_step : Int)
    (price_start price_step : Nat) : Auction × Option ProgramError :=
  match process_initialize_auction now owner_addr_ok token_addr_ok stored
      auction_authority token_mint token_amount time_start time_step
      price_start price_step with
  | .ok a => (a, none)
  | .err e => (stored, some e)
  | .crash => (stored, none)

/-- Number of elapsed whole time steps at clock reading `now`
(meaningful when `time_start ≤ now` and `0 < time_step`). -/
def stepsAt (a : Auction) (now : Int) : Nat :=
  (now - a.time_start).toNat / a.time_step.toNat

/-- The wrapped price decrement the code subtracts at `now`. -/
def prodAt (a : Auction) (now : Int) : Nat :=
  wrap64 (a.price_step * stepsAt a now)

/-- The price value the pricing engine yields at `now` (under the same
preconditions): `none` is Finished, `some p` is Active at price `p`. -/
def priceAt (a : Auction) (now : Int) : Option Nat :=
  if a.price_start ≤ prodAt a now then none
  else some (a.price_start - prodAt a now)

/-- Order on price states with Finished (`none`) below every Active
price, used to state price monotonicity. -/
def priceLE : Option Nat → Option Nat → Prop
  | none, _ => True
  | some _, none => False
  | some p, some q => p ≤ q

instance decPriceLE : (x y : Option Nat) → Decidable (priceLE x y)
  | none, _ => isTrue trivial
  | some _, none => isFalse (fun h => h)
  | some p, some q => inferInstanceAs (Decidable (p ≤ q))

/-- The all-zero 32-byte identity. -/
def zeroPk : Pubkey := List.replicate 32 0

/-- A sample identity distinct from `pkB`. -/
def pkA : Pubkey := List.replicate 32 1

/-- A sample identity distinct from `pkA`. -/
def pkB : Pubkey := List.replicate 32 2

/-- The record a freshly allocated (zero-filled) auction account
deserializes to: uninitialized, all fields zero. -/
def auctionZero : Auction :=
  { is_initialized := false, authority := zeroPk, token := zeroPk,
    time_start := 0, time_step := 0, price_start := 0, price_step := 0 }

/-- The worked example of spec section 8: start price 10^10, decrement
10^9 every 60 seconds from time 0. -/
def auctionExample : Auction :=
  { is_initialized := true, authority := pkA, token := pkB,
    time_start := 0, time_step := 60, price_start := 10000000000,
    price_step := 1000000000 }

/-- A record exhibiting the wrapping multiplication in the pricing
engine: price_step = 2^63, so after two steps the exact decrement is
2^64 while the wrapped decrement is 0. -/
def auctionWrapCE : Auction :=
  { is_initialized := true, authority := pkA, token := pkB,
    time_start := 0, time_step := 1, price_start := 1,
    price_step := 9223372036854775808 }

/-- A record exhibiting the wrapping lamport multiplication in Bid:
constant price 2^32, so a bid of 2^32 tokens costs exactly 2^64
lamports, which wraps to 0. -/
def auctionBidCE : Auction :=
  { is_initialized := true, authority := pkA, token := pkB,
    time_start := 0, time_step := 1, price_start := 4294967296,
    price_step := 0 }

/-- An active auction owned by `pkA`, used for the withdrawal gating
claims (constant nonzero price, so it is Active at every nonnegative
clock reading). -/
def auctionGate : Auction :=
  { is_initialized := true, authority := pkA, token := pkB,
    time_start := 0, time_step := 1, price_start := 5, price_step := 0 }

/-- An uninitialized record whose time and price fields nevertheless
describe a live auction (first byte of the stored form is 0, the rest
nonzero): bids against it are accepted by the code. -/
def auctionUninit : Auction :=
  { is_initialized := false, authority := pkA, token := pkB,
    time_start := 0, time_step := 1, price_start := 5, price_step := 0 }

/-!
Byte-level lemmas for the little-endian codecs.
-/

theorem natToLe_length (n k : Nat) : (natToLe n k).length = k := by
  induction k generalizing n with
  | zero => rfl
  | succ k ih => simp [natToLe, ih]

theorem leToNat_natToLe (k n : Nat) : leToNat (natToLe n k) = n % 256 ^ k := by
  induction k generalizing n with
  | zero => simp [natToLe, leToNat, Nat.mod_one]
  | succ k ih =>
      rw [natToLe, leToNat, ih, Nat.pow_succ', Nat.mod_mul]

theorem pow256_8 : (256 : Nat) ^ 8 = 18446744073709551616 := by norm_num

theorem leToNat_natToLe_64 (n : Nat) (h : n < 18446744073709551616) :
    leToNat (natToLe n 8) = n := by
  rw [leToNat_natToLe, pow256_8, Nat.mod_eq_of_lt h]

theorem intToLe_length (x : Int) : (intToLe x).length = 8 := by
  simp [intToLe, natToLe_length]

theorem leToInt_intToLe (x : Int) (h1 : -9223372036854775808 ≤ x)
    (h2 : x < 9223372036854775808) : leToInt (intToLe x) = x := by
  unfold leToInt intToLe
  rw [leToNat_natToLe, pow256_8]
  split <;> omega

/-!
Segment lemmas used to read back `array_refs!`-style chunks.
-/

theorem seg_inner {x ys : List Nat} (off n : Nat) (h : off + n ≤ x.length) :
    seg (x ++ ys) off n = seg x off n := by
  unfold seg
  rw [List.drop_append_eq_append_drop, List.take_append_eq_append_take]
  have hd : (x.drop off).length = x.length - off := List.length_drop off x
  rw [show n - (x.drop off).length = 0 from by omega]
  simp

theorem seg_last {x ys : List Nat} (off n : Nat) (hx : x.length = off)
    (hy : ys.length = n) :
    seg (x ++ ys) off n = ys := by
  simp [seg, List.drop_left' hx, List.take_of_length_le (le_of_eq hy)]

theorem seg_start (x : List Nat) (n : Nat) (hx : x.length = n) :
    seg x 0 n = x := by
  simp [seg, List.take_of_length_le (le_of_eq hx)]

/-!
Instruction codec lemmas.
-/

theorem unpack_u64_natToLe (n : Nat) (rest : List Nat)
    (h : n < 18446744073709551616) :
    unpack_u64 (natToLe n 8 ++ rest) = .ok (n, rest) := by
  have hlen : (natToLe n 8).length = 8 := natToLe_length n 8
  unfold unpack_u64
  rw [if_neg (by rw [List.length_append, hlen]; omega)]
  rw [List.take_left' hlen, List.drop_left' hlen, leToNat_natToLe_64 n h]

theorem unpack_u64_natToLe_nil (n : Nat) (h : n < 18446744073709551616) :
    unpack_u64 (natToLe n 8) = .ok (n, []) := by
  have := unpack_u64_natToLe n [] h
  simpa using this

theorem unpack_ts_intToLe (x : Int) (rest : List Nat)
    (h1 : -9223372036854775808 ≤ x) (h2 : x < 9223372036854775808) :
    unpack_unix_timestamp (intToLe x ++ rest) = .ok (x, rest) := by
  have hlen : (intToLe x).length = 8 := intToLe_length x
  unfold unpack_unix_timestamp
  rw [if_neg (by rw [List.length_append, hlen]; omega)]
  rw [List.take_left' hlen, List.drop_left' hlen, leToInt_intToLe x h1 h2]

/-- C3: correction of the error-handling contract of the instruction
decoder, evaluated at concrete inputs.  The spec claims
`InvalidInstruction` whenever a fixed-width field cannot be read in
full; in fact `unpack_u64`/`unpack_unix_timestamp` call
`input.split_at(8)`, which panics when fewer than 8 bytes remain (the
`try_into ... ok_or(InvalidInstruction)` guard is unreachable), so the
single-byte MakeBid instruction `[1]` aborts the program instead of
returning `InvalidInstruction`.  Unrecognized tags and trailing bytes
are rejected with `InvalidInstruction` as claimed. -/
theorem c3_truncated_field_crashes :
    AuctionInstruction.unpack [1] = .crash ∧
    AuctionInstruction.unpack [9] = .err (.custom .InvalidInstruction) ∧
    AuctionInstruction.unpack [2, 0] = .err (.custom .InvalidInstruction) := by
  decide

/-- C4: decoding inverts encoding on every command variant whose fields
are representable by the Rust types (u64 fields below 2^64, i64 fields
in the i64 range). -/
theorem c4_pack_unpack_roundtrip (c : AuctionInstruction) (h : c.wfb = true) :
    AuctionInstruction.unpack c.pack = .ok c := by
  cases c with
  | InitializeAuction ta ts tst ps pst =>
      simp only [AuctionInstruction.wfb, Bool.and_eq_true, decide_eq_true_eq] at h
      obtain ⟨⟨⟨⟨⟨⟨h1, h2⟩, h3⟩, h4⟩, h5⟩, h6⟩, h7⟩ := h
      simp [AuctionInstruction.pack, AuctionInstruction.unpack, unpackFields,
        RResult.bind, unpack_u64_natToLe _ _ h1, unpack_ts_intToLe _ _ h2 h3,
        unpack_ts_intToLe _ _ h4 h5, unpack_u64_natToLe _ _ h6,
        unpack_u64_natToLe_nil _ h7]
  | MakeBid ta =>
      simp only [AuctionInstruction.wfb, decide_eq_true_eq] at h
      simp [AuctionInstruction.pack, AuctionInstruction.unpack, unpackFields,
        RResult.bind, unpack_u64_natToLe_nil _ h]
  | WithdrawSOL => decide
  | WithdrawTokens => decide

/-- C4 witness: a concrete MakeBid command round-trips. -/
theorem c4_pack_unpack_roundtrip_witness :
    AuctionInstruction.unpack (AuctionInstruction.pack (.MakeBid 7)) =
      .ok (.MakeBid 7) :=
  c4_pack_unpack_roundtrip (.MakeBid 7) (by decide)

/-- Reading the seven `array_refs!` chunks back out of a 97-byte record
image laid out as flag (1) / authority (32) / token (32) / four 8-byte
integers. -/
theorem seg_chunks (F A T S1 S2 S3 S4 : List Nat)
    (hF : F.length = 1) (hA : A.length = 32) (hT : T.length = 32)
    (h1 : S1.length = 8) (h2 : S2.length = 8) (h3 : S3.length = 8)
    (h4 : S4.length = 8) :
    seg (F ++ A ++ T ++ S1 ++ S2 ++ S3 ++ S4) 0 1 = F ∧
    seg (F ++ A ++ T ++ S1 ++ S2 ++ S3 ++ S4) 1 32 = A ∧
    seg (F ++ A ++ T ++ S1 ++ S2 ++ S3 ++ S4) 33 32 = T ∧
    seg (F ++ A ++ T ++ S1 ++ S2 ++ S3 ++ S4) 65 8 = S1 ∧
    seg (F ++ A ++ T ++ S1 ++ S2 ++ S3 ++ S4) 73 8 = S2 ∧
    seg (F ++ A ++ T ++ S1 ++ S2 ++ S3 ++ S4) 81 8 = S3 ∧
    seg (F ++ A ++ T ++ S1 ++ S2 ++ S3 ++ S4) 89 8 = S4 := by
  have hX2 : (F ++ A).length = 33 := by simp [hF, hA]
  have hX3 : (F ++ A ++ T).length = 65 := by simp [hF, hA, hT]
  have hX4 : (F ++ A ++ T ++ S1).length = 73 := by simp [hF, hA, hT, h1]
  have hX5 : (F ++ A ++ T ++ S1 ++ S2).length = 81 := by
    simp [hF, hA, hT, h1, h2]
  have hX6 : (F ++ A ++ T ++ S1 ++ S2 ++ S3).length = 89 := by
    simp [hF, hA, hT, h1, h2, h3]
  refine ⟨?_, ?_, ?_, ?_, ?_, ?_, ?_⟩
  · rw [seg_inner 0 1 (by omega), seg_inner 0 1 (by omega),
      seg_inner 0 1 (by omega), seg_inner 0 1 (by omega),
      seg_inner 0 1 (by omega), seg_inner 0 1 (by omega)]
    exact seg_start F 1 hF
  · rw [seg_inner 1 32 (by omega), seg_inner 1 32 (by omega),
      seg_inner 1 32 (by omega), seg_inner 1 32 (by omega),
      seg_inner 1 32 (by omega)]
    exact seg_last 1 32 hF hA
  · rw [seg_inner 33 32 (by omega), seg_inner 33 32 (by omega),
      seg_inner 33 32 (by omega), seg_inner 33 32 (by omega)]
    exact seg_last 33 32 hX2 hT
  · rw [seg_inner 65 8 (by omega), seg_inner 65 8 (by omega),
      seg_inner 65 8 (by omega)]
    exact seg_last 65 8 hX3 h1
  · rw [seg_inner 73 8 (by omega), seg_inner 73 8 (by omega)]
    exact seg_last 73 8 hX4 h2
  · rw [seg_inner 81 8 (by omega)]
    exact seg_last 81 8 hX5 h3
  · exact seg_last 89 8 hX6 h4

/-- The serialized record is exactly 97 bytes. -/
theorem pack_into_slice_length (a : Auction)
    (hA : a.authority.length = 32) (hT : a.token.length = 32) :
    a.pack_into_slice.length = 97 := by
  have hF : (if a.is_initialized then [1] else ([0] : List Nat)).length = 1 := by
    cases a.is_initialized <;> rfl
  simp [Auction.pack_into_slice, hF, hA, hT, intToLe_length, natToLe_length]

/-- Serialize-then-deserialize returns the original record. -/
theorem unpack_pack_slice (a : Auction) (ha : a.wfb = true) :
    Auction.unpack_from_slice a.pack_into_slice = .ok a := by
  obtain ⟨init, A, T, ts, tst, ps, pst⟩ := a
  simp only [Auction.wfb, Bool.and_eq_true, decide_eq_true_eq] at ha
  obtain ⟨⟨⟨⟨⟨⟨⟨hA, hT⟩, h1⟩, h2⟩, h3⟩, h4⟩, h5⟩, h6⟩ := ha
  have hlen := pack_into_slice_length ⟨init, A, T, ts, tst, ps, pst⟩ hA hT
  have hchunks := seg_chunks (if init then [1] else [0]) A T
    (intToLe ts) (intToLe tst) (natToLe ps 8) (natToLe pst 8)
    (by cases init <;> rfl) hA hT (intToLe_length ts) (intToLe_length tst)
    (natToLe_length ps 8) (natToLe_length pst 8)
  obtain ⟨g0, g1, g2, g3, g4, g5, g6⟩ := hchunks
  unfold Auction.unpack_from_slice
  rw [if_neg (by omega)]
  rw [show Auction.pack_into_slice ⟨init, A, T, ts, tst, ps, pst⟩ =
      (if init then [1] else [0]) ++ A ++ T ++ intToLe ts ++ intToLe tst ++
        natToLe ps 8 ++ natToLe pst 8 from rfl]
  rw [g0, g1, g2, g3, g4, g5, g6]
  cases init
  · simp [decodeInitFlag, leToInt_intToLe _ h1 h2, leToInt_intToLe _ h3 h4,
      leToNat_natToLe_64 _ h5, leToNat_natToLe_64 _ h6]
  · simp [decodeInitFlag, leToInt_intToLe _ h1 h2, leToInt_intToLe _ h3 h4,
      leToNat_natToLe_64 _ h5, leToNat_natToLe_64 _ h6]

theorem decodeInitFlag_single (b : Nat) :
    decodeInitFlag [b] =
      if b = 0 then some false else if b = 1 then some true else none := by
  match b with
  | 0 => rfl
  | 1 => rfl
  | _ + 2 => rfl

/-- Deserialization of a 97-byte buffer is decided entirely by the
leading flag byte. -/
theorem unpack_from_slice_cons (b : Nat) (rest : List Nat)
    (hlen : (b :: rest).length = 97) :
    (Auction.unpack_from_slice (b :: rest) = .err .invalidAccountData ↔
      (b ≠ 0 ∧ b ≠ 1)) ∧
    (b = 0 ∨ b = 1 →
      ∃ r, Auction.unpack_from_slice (b :: rest) = .ok r) := by
  unfold Auction.unpack_from_slice
  rw [if_neg (by omega)]
  rw [show seg (b :: rest) 0 1 = [b] from rfl, decodeInitFlag_single]
  by_cases hb0 : b = 0
  · subst hb0
    simp
  · by_cases hb1 : b = 1
    · subst hb1
      simp
    · simp [hb0, hb1]

/-- C10: the 97-byte record codec.  On any 97-byte buffer,
deserialization fails (with `InvalidAccountData`, the only failure
mode) exactly when the leading flag byte is neither 0 nor 1; it
succeeds on every buffer whose flag byte is 0 or 1; and serializing any
representable record then deserializing returns the original record. -/
theorem c10_record_codec (bs : List Nat) (a : Auction)
    (hlen : bs.length = 97) (ha : a.wfb = true) :
    (Auction.unpack_from_slice bs = .err .invalidAccountData ↔
      (seg bs 0 1 ≠ [0] ∧ seg bs 0 1 ≠ [1])) ∧
    ((seg bs 0 1 = [0] ∨ seg bs 0 1 = [1]) →
      ∃ r, Auction.unpack_from_slice bs = .ok r) ∧
    (bs = a.pack_into_slice → Auction.unpack_from_slice bs = .ok a) := by
  rcases bs with _ | ⟨b, rest⟩
  · simp at hlen
  · have h := unpack_from_slice_cons b rest hlen
    refine ⟨?_, ?_, fun hbs => by rw [hbs]; exact unpack_pack_slice a ha⟩
    · rw [show seg (b :: rest) 0 1 = [b] from rfl]
      simpa using h.1
    · rw [show seg (b :: rest) 0 1 = [b] from rfl]
      intro hb
      exact h.2 (by simpa using hb)

/-- C10 witness: packing the spec example record gives a 97-byte image
that deserializes back to the record. -/
theorem c10_record_codec_witness :
    Auction.unpack_from_slice auctionExample.pack_into_slice =
      .ok auctionExample :=
  (c10_record_codec auctionExample.pack_into_slice auctionExample
    (by decide) (by decide)).2.2 rfl

/-!
Pricing engine lemmas.
-/

theorem wfb_bounds (a : Auction) (ha : a.wfb = true) :
    a.authority.length = 32 ∧ a.token.length = 32 ∧
    -9223372036854775808 ≤ a.time_start ∧
    a.time_start < 9223372036854775808 ∧
    -9223372036854775808 ≤ a.time_step ∧
    a.time_step < 9223372036854775808 ∧
    a.price_start < 18446744073709551616 ∧
    a.price_step < 18446744073709551616 := by
  simp only [Auction.wfb, Bool.and_eq_true, decide_eq_true_eq] at ha
  tauto

/-- On a started auction with a positive step, a nonnegative start time
and a representable clock reading, the pricing engine returns exactly
`priceAt`: the i64 subtraction does not wrap, the Euclidean division is
plain natural division, and the `as u64` cast is the identity. -/
theorem get_current_price_spec (a : Auction) (now : Int)
    (hstep : 0 < a.time_step) (hts : 0 ≤ a.time_start)
    (hle : a.time_start ≤ now) (hnow : now < 9223372036854775808) :
    get_current_price a now = .ok (priceAt a now) := by
  have hd : i64wrap (now - a.time_start) = now - a.time_start := by
    unfold i64wrap
    omega
  have hdiv : (now - a.time_start) / a.time_step = ((stepsAt a now : Nat) : Int) := by
    rw [show now - a.time_start = (((now - a.time_start).toNat : Nat) : Int) from
      by omega]
    rw [show a.time_step = (((a.time_step.toNat : Nat) : Nat) : Int) from by omega]
    rw [← Int.ofNat_ediv]
    rfl
  have hsteps_lt : stepsAt a now < 18446744073709551616 := by
    unfold stepsAt
    have h := Nat.div_le_self (now - a.time_start).toNat a.time_step.toNat
    omega
  have hcast : u64cast ((stepsAt a now : Nat) : Int) = stepsAt a now := by
    unfold u64cast
    omega
  unfold get_current_price
  rw [if_neg (by omega)]
  have hcond : ¬(a.time_step = 0 ∨
      (i64wrap (now - a.time_start) = -9223372036854775808 ∧
        a.time_step = -1)) := by
    rw [hd]
    rintro (h | ⟨h1, h2⟩) <;> omega
  rw [if_neg hcond, hd, hdiv, hcast]
  rfl

/-- C1 (amended): the pricing engine returns `NotStarted` exactly when
`now < time_start`; otherwise, with `steps = floor((now-time_start)/time_step)`,
it is Finished exactly when `price_start ≤ (price_step * steps) mod 2^64`
(checked subtraction underflow, or a result of exactly zero) and
otherwise Active at `price_start - (price_step * steps) mod 2^64`: the
multiplication `price_step * steps` is an unchecked u64 multiplication
and wraps modulo 2^64, so only the subtraction is overflow-checked.
Stated for records with a positive time step (the spec invariant), a
nonnegative start time and a clock reading in the i64 range. -/
theorem c1_pricing_characterization (a : Auction) (now : Int)
    (hstep : 0 < a.time_step) (hts : 0 ≤ a.time_start)
    (hnow : now < 9223372036854775808) :
    (now < a.time_start →
      get_current_price a now = .err (.custom .NotStarted)) ∧
    (a.time_start ≤ now →
      get_current_price a now =
        .ok (if a.price_start ≤
              a.price_step * stepsAt a now % 18446744073709551616
            then none
            else some (a.price_start -
              a.price_step * stepsAt a now % 18446744073709551616))) := by
  constructor
  · intro h
    unfold get_current_price
    rw [if_pos (by omega)]
  · intro h
    rw [get_current_price_spec a now hstep hts h hnow]
    rfl

/-- C1 witness: the spec section 8 example at the first boundary,
`price_start = 10^10`, `price_step = 10^9`, `time_step = 60`,
evaluated at `now = time_start + 60`. -/
theorem c1_pricing_characterization_witness :
    get_current_price auctionExample 60 = .ok (some 9000000000) := by
  have h := (c1_pricing_characterization auctionExample 60 (by decide)
    (by decide) (by decide)).2 (by decide)
  rw [h]
  decide

/-- C1 counterexample to the claim as stated: with
`price_start = 1`, `price_step = 2^63`, `time_step = 1` at `now = 2`
we have `steps = 2` and the exact product `price_step * steps = 2^64`
exceeds `price_start`, so under non-wrapping arithmetic the claim
requires Finished; the code's wrapping multiplication yields 0 and the
engine reports Active(1). -/
theorem c1_counterexample :
    get_current_price auctionWrapCE 2 = .ok (some 1) ∧
    stepsAt auctionWrapCE 2 = 2 ∧
    auctionWrapCE.price_start ≤ auctionWrapCE.price_step * 2 := by
  decide

theorem stepsAt_mono (a : Auction) {now1 now2 : Int} (h : now1 ≤ now2) :
    stepsAt a now1 ≤ stepsAt a now2 := by
  unfold stepsAt
  exact Nat.div_le_div_right (by omega)

theorem stepsAt_add_step (a : Auction) (now : Int) (hstep : 0 < a.time_step)
    (h : a.time_start ≤ now) :
    stepsAt a (now + a.time_step) = stepsAt a now + 1 := by
  unfold stepsAt
  rw [show (now + a.time_step - a.time_start).toNat
      = (now - a.time_start).toNat + a.time_step.toNat from by omega]
  exact Nat.add_div_right _ (by omega)

theorem stepsAt_zero (a : Auction) (now : Int) (h1 : a.time_start ≤ now)
    (h2 : now < a.time_start + a.time_step) :
    stepsAt a now = 0 := by
  unfold stepsAt
  exact Nat.div_eq_of_lt (by omega)

/-- C6 (amended): for a fixed representable record with positive time
step, nonnegative start time and positive start price, on the range
where the u64 product `price_step * steps` does not wrap, the price is
non-increasing in `now` (Finished below every Active price), equals
`price_start` throughout `[time_start, time_start + time_step)`, drops
by exactly `price_step` across one `time_step` while the auction stays
Active, and is Finished exactly when the exact subtraction underflows
or yields zero.  (Outside the no-wrap range the wrapped product makes
the price non-monotone, see the counterexample.) -/
theorem c6_price_monotonicity (a : Auction) (ha : a.wfb = true)
    (hstep : 0 < a.time_step) (hts : 0 ≤ a.time_start)
    (hps : 0 < a.price_start) :
    (∀ now1 now2 : Int, a.time_start ≤ now1 → now1 ≤ now2 →
      now2 < 9223372036854775808 →
      a.price_step * stepsAt a now2 < 18446744073709551616 →
      get_current_price a now1 = .ok (priceAt a now1) ∧
      get_current_price a now2 = .ok (priceAt a now2) ∧
      priceLE (priceAt a now2) (priceAt a now1)) ∧
    (∀ now : Int, a.time_start ≤ now → now < a.time_start + a.time_step →
      now < 9223372036854775808 →
      get_current_price a now = .ok (some a.price_start)) ∧
    (∀ now : Int, a.time_start ≤ now →
      now + a.time_step < 9223372036854775808 →
      a.price_step * stepsAt a (now + a.time_step) < a.price_start →
      ∃ p q, get_current_price a now = .ok (some p) ∧
        get_current_price a (now + a.time_step) = .ok (some q) ∧
        p = q + a.price_step) ∧
    (∀ now : Int, a.time_start ≤ now → now < 9223372036854775808 →
      a.price_step * stepsAt a now < 18446744073709551616 →
      (get_current_price a now = .ok none ↔
        a.price_start ≤ a.price_step * stepsAt a now)) := by
  obtain ⟨-, -, -, -, -, -, hpslt, -⟩ := wfb_bounds a ha
  refine ⟨?_, ?_, ?_, ?_⟩
  · intro now1 now2 h1 h12 h2lt hw
    have hk : stepsAt a now1 ≤ stepsAt a now2 := stepsAt_mono a h12
    have hm : a.price_step * stepsAt a now1 ≤ a.price_step * stepsAt a now2 :=
      Nat.mul_le_mul_left _ hk
    refine ⟨get_current_price_spec a now1 hstep hts h1 (by omega),
      get_current_price_spec a now2 hstep hts (by omega) h2lt, ?_⟩
    unfold priceAt prodAt wrap64
    rw [Nat.mod_eq_of_lt hw, Nat.mod_eq_of_lt (by omega)]
    by_cases hc : a.price_start ≤ a.price_step * stepsAt a now2
    · rw [if_pos hc]
      trivial
    · rw [if_neg hc, if_neg (by omega)]
      show a.price_start - a.price_step * stepsAt a now2 ≤
        a.price_start - a.price_step * stepsAt a now1
      omega
  · intro now h1 h2 hlt
    rw [get_current_price_spec a now hstep hts h1 hlt]
    unfold priceAt prodAt wrap64
    rw [stepsAt_zero a now h1 h2, Nat.mul_zero, Nat.zero_mod,
      if_neg (by omega), Nat.sub_zero]
  · intro now h1 h2 hlt
    have hk := stepsAt_add_step a now hstep h1
    have hms : a.price_step * (stepsAt a now + 1)
        = a.price_step * stepsAt a now + a.price_step := Nat.mul_succ _ _
    have hw2 : a.price_step * stepsAt a (now + a.time_step)
        < 18446744073709551616 := by omega
    have hw1 : a.price_step * stepsAt a now
        ≤ a.price_step * stepsAt a (now + a.time_step) :=
      Nat.mul_le_mul_left _ (stepsAt_mono a (by omega))
    refine ⟨a.price_start - a.price_step * stepsAt a now,
      a.price_start - a.price_step * stepsAt a (now + a.time_step),
      ?_, ?_, ?_⟩
    · rw [get_current_price_spec a now hstep hts h1 (by omega)]
      unfold priceAt prodAt wrap64
      rw [Nat.mod_eq_of_lt (by omega), if_neg (by omega)]
    · rw [get_current_price_spec a (now + a.time_step) hstep hts
        (by omega) (by omega)]
      unfold priceAt prodAt wrap64
      rw [Nat.mod_eq_of_lt hw2, if_neg (by omega)]
    · rw [hk] at hlt ⊢
      omega
  · intro now h1 hlt hw
    rw [get_current_price_spec a now hstep hts h1 hlt]
    unfold priceAt prodAt wrap64
    rw [Nat.mod_eq_of_lt hw]
    constructor
    · intro h
      by_cases hc : a.price_start ≤ a.price_step * stepsAt a now
      · exact hc
      · rw [if_neg hc] at h
        exact absurd h (by simp)
    · intro h
      rw [if_pos h]

/-- C6 witness: the spec section 8 example is Active at 10^10 during
the first step, drops to 9 * 10^9 after one 60-second step, and the
price one step later is exactly `price_step` lower. -/
theorem c6_price_monotonicity_witness :
    get_current_price auctionExample 30 = .ok (some 10000000000) ∧
    (∃ p q, get_current_price auctionExample 30 = .ok (some p) ∧
      get_current_price auctionExample 90 = .ok (some q) ∧
      p = q + auctionExample.price_step) := by
  have h := c6_price_monotonicity auctionExample (by decide) (by decide)
    (by decide) (by decide)
  exact ⟨h.2.1 30 (by decide) (by decide) (by decide),
    h.2.2.1 30 (by decide) (by decide) (by decide)⟩

/-- C6 counterexample to the claim as stated: with the wrapping record
(`price_start = 1`, `price_step = 2^63`, `time_step = 1`) the price is
Finished at `now = 1` but Active(1) again at `now = 2`, so the price is
not non-increasing with Finished below every Active price. -/
theorem c6_counterexample :
    (1 : Int) ≤ 2 ∧
    get_current_price auctionWrapCE 1 = .ok none ∧
    get_current_price auctionWrapCE 2 = .ok (some 1) ∧
    ¬ priceLE (some 1) none := by
  decide

/-!
Processor lemmas.
-/

/-- C2 (amended): while the pricing engine reports Active(price), a bid
with an empty vault fails `EverythingSoldOut` with no transfer, and
otherwise transfers exactly `actual = min(token_amount, vault_balance)`
tokens to the bidder and `(actual * price) mod 2^64` lamports to the
vault authority: the lamport amount is an unchecked u64 multiplication
and wraps modulo 2^64 (the claim's exact `actual * price` only when the
product stays below 2^64).  An oversized bid is capped, not rejected. -/
theorem c2_bid_partial_fill (a : Auction) (now : Int)
    (price vault_amount token_amount : Nat)
    (hp : get_current_price a now = .ok (some price)) :
    (vault_amount = 0 →
      process_bid a now vault_amount token_amount =
        .err (.custom .EverythingSoldOut)) ∧
    (0 < vault_amount →
      process_bid a now vault_amount token_amount =
        .ok (min token_amount vault_amount * price % 18446744073709551616,
          min token_amount vault_amount)) := by
  constructor
  · intro h
    unfold process_bid
    rw [hp]
    simp [RResult.bind, h]
  · intro h
    unfold process_bid
    rw [hp]
    simp only [RResult.bind]
    rw [if_neg (by omega)]
    rfl

/-- C2 witness: the spec section 8 partial-fill example: vault holds
100 units, a bid for 150 at price 10^10 transfers 100 units for
exactly 100 * 10^10 lamports. -/
theorem c2_bid_partial_fill_witness :
    process_bid auctionExample 0 100 150 = .ok (1000000000000, 100) := by
  have h := (c2_bid_partial_fill auctionExample 0 10000000000 100 150
    (by decide)).2 (by decide)
  rw [h]
  decide

/-- C2 counterexample to the claim as stated: at constant price 2^32 a
bid for 2^32 tokens against a vault of 2^32 is fully filled but pays
`(2^32 * 2^32) mod 2^64 = 0` lamports, not the claimed
`actual * price = 2^64`. -/
theorem c2_counterexample :
    get_current_price auctionBidCE 0 = .ok (some 4294967296) ∧
    process_bid auctionBidCE 0 4294967296 4294967296 =
      .ok (0, 4294967296) ∧
    (0 : Nat) ≠ 4294967296 * 4294967296 := by
  decide

/-- C5: the code accepts `time_step = 0` (the check is `time_step < 0`,
not `time_step <= 0`), contradicting the claim that Initialize rejects
every non-positive step with `InvalidInitializationTime`: at `now = 0`
an Initialize with `time_start = 10, time_step = 0` succeeds and writes
the record, and every later pricing query on that record panics on the
`div_euclid` by zero, aborting the program. -/
theorem c5_time_step_zero_accepted :
    process_initialize_auction 0 true true auctionZero pkA pkB 7 10 0 100 1 =
      .ok { is_initialized := true, authority := pkA, token := pkB,
            time_start := 10, time_step := 0, price_start := 100,
            price_step := 1 } ∧
    get_current_price
      { is_initialized := true, authority := pkA, token := pkB,
        time_start := 10, time_step := 0, price_start := 100,
        price_step := 1 } 10 = .crash := by
  decide

/-- C7 (amended): the withdrawals validate the owner before the
finished-state gate, so `NotFinished` is the failure exactly for the
authority itself (signing) while the pricing engine reports Active, and
a non-authority caller fails `OwnerMismatch` in every auction state -
including while the auction is Active, where the claim as stated
expects `NotFinished` regardless of caller identity.  In both failure
cases the processor aborts before any transfer. -/
theorem c7_withdraw_gating (a : Auction) (caller : Pubkey) (signed : Bool)
    (now : Int) (vault_amount owner_lamports : Nat) :
    (∀ price, caller = a.authority → signed = true →
      get_current_price a now = .ok (some price) →
      process_withdraw_tokens a caller signed now vault_amount =
        .err (.custom .NotFinished) ∧
      process_withdraw_sol a caller signed now owner_lamports =
        .err (.custom .NotFinished)) ∧
    (caller ≠ a.authority →
      process_withdraw_tokens a caller signed now vault_amount =
        .err (.custom .OwnerMismatch) ∧
      process_withdraw_sol a caller signed now owner_lamports =
        .err (.custom .OwnerMismatch)) := by
  constructor
  · intro price hc hs hp
    subst hc
    subst hs
    unfold process_withdraw_tokens process_withdraw_sol validate_owner
    rw [if_neg (by simp), if_neg (by simp)]
    rw [hp]
    exact ⟨rfl, rfl⟩
  · intro hc
    unfold process_withdraw_tokens process_withdraw_sol validate_owner
    rw [if_pos (fun h => hc h.symm)]
    exact ⟨rfl, rfl⟩

/-- C7 witness: with the Active gate auction owned by `pkA`, the
authority itself gets `NotFinished`, and the stranger `pkB` gets
`OwnerMismatch`. -/
theorem c7_withdraw_gating_witness :
    (process_withdraw_tokens auctionGate pkA true 0 10 =
      .err (.custom .NotFinished) ∧
     process_withdraw_sol auctionGate pkA true 0 20 =
      .err (.custom .NotFinished)) ∧
    (process_withdraw_tokens auctionGate pkB true 0 10 =
      .err (.custom .OwnerMismatch) ∧
     process_withdraw_sol auctionGate pkB true 0 20 =
      .err (.custom .OwnerMismatch)) :=
  ⟨(c7_withdraw_gating auctionGate pkA true 0 10 20).1 5 (by decide)
      (by decide) (by decide),
   (c7_withdraw_gating auctionGate pkB true 0 10 20).2 (by decide)⟩

/-- C7 counterexample to the claim as stated: while the pricing engine
reports Active(5), a withdrawal by the non-authority `pkB` fails with
`OwnerMismatch`, not the claimed `NotFinished`. -/
theorem c7_counterexample :
    get_current_price auctionGate 0 = .ok (some 5) ∧
    process_withdraw_tokens auctionGate pkB true 0 10 =
      .err (.custom .OwnerMismatch) ∧
    process_withdraw_sol auctionGate pkB true 0 20 =
      .err (.custom .OwnerMismatch) ∧
    ProgramError.custom .OwnerMismatch ≠ ProgramError.custom .NotFinished := by
  decide

/-- C8: a second Initialize on an already-initialized record (with
otherwise valid time parameters and derived addresses) fails
`AlreadyInUse` and leaves every stored field of the record unchanged. -/
theorem c8_no_double_init (stored : Auction) (auth mint : Pubkey)
    (now time_start time_step : Int)
    (token_amount price_start price_step : Nat)
    (hinit : stored.is_initialized = true)
    (h1 : now ≤ time_start) (h2 : 0 ≤ time_step) :
    init_apply now true true stored auth mint token_amount time_start
      time_step price_start price_step =
      (stored, some (.custom .AlreadyInUse)) := by
  unfold init_apply process_initialize_auction
  rw [if_neg (by omega), if_neg (by omega)]
  simp [hinit]

/-- C8 witness: re-initializing the initialized example record fails
`AlreadyInUse` and returns it unchanged. -/
theorem c8_no_double_init_witness :
    init_apply 0 true true auctionExample pkA pkB 7 10 5 100 1 =
      (auctionExample, some (.custom .AlreadyInUse)) :=
  c8_no_double_init auctionExample pkA pkB 0 10 5 7 100 1
    (by decide) (by decide) (by decide)

/-- C9 (amended): `process_bid` never consults the `initialized` flag
(the record is read with `unpack_unchecked`), but against the record a
freshly allocated, zero-filled auction account actually holds, a bid
can never complete a transfer: with a negative clock it fails
`NotStarted`, and otherwise it panics on the `div_euclid` by the zero
`time_step`, aborting the transaction.  (An uninitialized record with
nonzero time/price fields would be accepted - see the counterexample.) -/
theorem c9_zero_record_bid (now : Int) (vault_amount token_amount : Nat) :
    process_bid auctionZero now vault_amount token_amount =
      .err (.custom .NotStarted) ∨
    process_bid auctionZero now vault_amount token_amount = .crash := by
  by_cases h : now < 0
  · left
    unfold process_bid get_current_price
    rw [if_pos (by simp [auctionZero]; omega)]
    rfl
  · right
    unfold process_bid get_current_price
    rw [if_neg (by simp [auctionZero]; omega),
      if_pos (Or.inl (by simp [auctionZero]))]
    rfl

/-- C9 counterexample to the claim as stated: the claim quantifies over
every record with `initialized = false`; against such a record whose
time and price fields describe a live auction, the code accepts the bid
and completes both transfers (3 tokens for 15 lamports). -/
theorem c9_counterexample :
    auctionUninit.is_initialized = false ∧
    process_bid auctionUninit 0 10 3 = .ok (15, 3) := by
  decide
